import Mathlib

/-!
Shallow embedding of src/bot.py (options_alerts): the alert data model, the
store operations performed through the alerts collection, price fetching
(get_price), alert creation (handle_price_input), listing (list_alerts),
deletion (delete_alert) and the periodic evaluation cycle (check_prices).

Prices are modelled as rationals.  Python exceptions are modelled
explicitly: comparing a None last_price with a number raises TypeError in
Python 3, and a failing bot.send_message raises inside the loop; both abort
the remainder of the cycle while keeping the database writes already made.
-/

/-- Alert record as inserted by handle_price_input and stored in the
alerts collection.  The Mongo object id is modelled by the id field. -/
structure Alert where
  id : Nat
  chat_id : Int
  symbol : String
  price : ℚ
  alerted : Bool
  last_price : Option ℚ
  deriving DecidableEq, Repr

/-- Content of the message sent by context.bot.send_message in
check_prices: destination chat and the data interpolated into the text. -/
structure Message where
  chat_id : Int
  symbol : String
  target_price : ℚ
  current_price : ℚ
  deriving DecidableEq, Repr

/-- Python exceptions that can escape an iteration of check_prices:
a TypeError from comparing None with a number, or a delivery failure
raised by bot.send_message. -/
inductive PyExn where
  | typeError
  | deliveryError
  deriving DecidableEq, Repr

/-- Replies handle_price_input can send back to the user. -/
inductive CreateReply where
  | alert_set (symbol : String) (price : ℚ)
  | invalid_price
  | select_symbol_first
  deriving DecidableEq, Repr

/-- Replies delete_alert can send back to the user. -/
inductive DeleteReply where
  | deleted
  | invalid_number
  | usage
  deriving DecidableEq, Repr

/-- get_price from src/bot.py lines 131-137: calls exchange.fetch_ticker
(modelled by the fetch argument, which either returns the last price or
raises) and converts any exception into None. -/
def get_price (fetch : String → Except String ℚ) (symbol : String) : Option ℚ :=
  match fetch symbol with
  | Except.ok last => some last
  | Except.error _ => none

/-- Crossing condition of check_prices, src/bot.py line 153:
(last_price > target_price and current_price <= target_price) or
(last_price < target_price and current_price >= target_price).
When last_price is None the Python 3 comparison raises TypeError, which is
modelled by the error outcome. -/
def crossed (last_price : Option ℚ) (current_price target_price : ℚ) :
    Except Unit Bool :=
  match last_price with
  | none => Except.error ()
  | some lp =>
      Except.ok (decide ((lp > target_price ∧ current_price ≤ target_price) ∨
        (lp < target_price ∧ current_price ≥ target_price)))

/-- Mongo update_one filtered by object id: rewrites the first record with
the given id, leaving the rest of the collection unchanged. -/
def update_one (store : List Alert) (i : Nat) (f : Alert → Alert) : List Alert :=
  match store with
  | [] => []
  | a :: rest => if a.id = i then f a :: rest else a :: update_one rest i f

/-- Mongo delete_one filtered by object id: removes the first record with
the given id. -/
def delete_one (store : List Alert) (i : Nat) : List Alert :=
  match store with
  | [] => []
  | a :: rest => if a.id = i then rest else a :: delete_one rest i

/-- Lookup of the first record with the given id, the identity-keyed read
the update and delete operations are compared against. -/
def find_one (store : List Alert) (i : Nat) : Option Alert :=
  match store with
  | [] => none
  | a :: rest => if a.id = i then some a else find_one rest i

/-- Database write performed at src/bot.py line 161: set alerted to true
on the record with the given id. -/
def mark_alerted (store : List Alert) (i : Nat) : List Alert :=
  update_one store i (fun a => { a with alerted := true })

/-- Database write performed at src/bot.py line 164: set last_price on the
record with the given id. -/
def set_last_price (store : List Alert) (i : Nat) (p : ℚ) : List Alert :=
  update_one store i (fun a => { a with last_price := some p })

/-- Query issued at src/bot.py line 141: all records whose alerted field
is false, every owner included. -/
def active_alerts (store : List Alert) : List Alert :=
  store.filter (fun a => !a.alerted)

/-- Query issued by list_alerts (line 103) and delete_alert (line 118):
records of the given chat whose alerted field is false, in store order. -/
def list_alerts (chat_id : Int) (store : List Alert) : List Alert :=
  store.filter (fun a => a.chat_id == chat_id && !a.alerted)

/-- handle_price_input, src/bot.py lines 72-98.  The pyFloat argument
models the Python float() parser applied to the message text (None when
float() raises ValueError); selected_symbol models
context.user_data.get of the selected symbol; next_id is the object id the
store assigns to a new record.  Returns the new store and the reply. -/
def handle_price_input (pyFloat : String → Option ℚ)
    (fetch : String → Except String ℚ) (selected_symbol : Option String)
    (text : String) (chat_id : Int) (next_id : Nat) (store : List Alert) :
    List Alert × CreateReply :=
  match selected_symbol with
  | none => (store, CreateReply.select_symbol_first)
  | some symbol =>
      match pyFloat text with
      | none => (store, CreateReply.invalid_price)
      | some price =>
          let current_price := get_price fetch symbol
          let alert : Alert :=
            { id := next_id, chat_id := chat_id, symbol := symbol,
              price := price, alerted := false, last_price := current_price }
          (store ++ [alert], CreateReply.alert_set symbol price)

/-- delete_alert, src/bot.py lines 114-128.  The pyInt argument models the
Python int() parser applied to the first command argument (None when int()
raises ValueError); an empty args list models the IndexError from
context.args index 0.  The candidate list is the same query list_alerts
issues, and the guard 0 <= idx < len(alerts) is checked before indexing. -/
def delete_alert (pyInt : String → Option Int) (chat_id : Int)
    (args : List String) (store : List Alert) : List Alert × DeleteReply :=
  match args with
  | [] => (store, DeleteReply.usage)
  | arg :: _ =>
      match pyInt arg with
      | none => (store, DeleteReply.usage)
      | some n =>
          let idx : Int := n - 1
          let alerts := list_alerts chat_id store
          if h : 0 ≤ idx ∧ idx < (alerts.length : Int) then
            (delete_one store (alerts.get ⟨idx.toNat, by omega⟩).id,
              DeleteReply.deleted)
          else
            (store, DeleteReply.invalid_number)

/-- Body of the for loop of check_prices, src/bot.py lines 143-164,
iterating over a snapshot of the active alerts while threading the store
and the list of sent messages (each tagged with the id of the alert whose
iteration sent it).  A fetch returning None skips the alert; a TypeError
from the crossing test or a delivery failure from send_message aborts the
remaining iterations, keeping the database writes made so far.  In the
crossing branch the message is sent first, then alerted is set, and then
last_price is written (line 164) in both branches. -/
def check_loop (fetch : String → Except String ℚ)
    (send : Message → Except Unit Unit) :
    List Alert → List Alert → List (Nat × Message) →
      List Alert × List (Nat × Message) × Option PyExn
  | [], store, sent => (store, sent, none)
  | alert :: rest, store, sent =>
      match get_price fetch alert.symbol with
      | none => check_loop fetch send rest store sent
      | some current_price =>
          match crossed alert.last_price current_price alert.price with
          | Except.error _ => (store, sent, some PyExn.typeError)
          | Except.ok true =>
              let msg : Message :=
                { chat_id := alert.chat_id, symbol := alert.symbol,
                  target_price := alert.price, current_price := current_price }
              match send msg with
              | Except.error _ => (store, sent, some PyExn.deliveryError)
              | Except.ok _ =>
                  check_loop fetch send rest
                    (set_last_price (mark_alerted store alert.id) alert.id
                      current_price)
                    (sent ++ [(alert.id, msg)])
          | Except.ok false =>
              check_loop fetch send rest
                (set_last_price store alert.id current_price) sent

/-- check_prices, src/bot.py lines 140-164: one evaluation cycle over the
snapshot of alerts with alerted false. -/
def check_prices (fetch : String → Except String ℚ)
    (send : Message → Except Unit Unit) (store : List Alert) :
    List Alert × List (Nat × Message) × Option PyExn :=
  check_loop fetch send (active_alerts store) store []

/-! ### Lemmas about the keyed store operations -/

theorem find_one_mem (store : List Alert) (i : Nat) (a : Alert)
    (h : find_one store i = some a) : a ∈ store ∧ a.id = i := by
  induction store with
  | nil => simp [find_one] at h
  | cons b rest ih =>
      rw [find_one] at h
      by_cases hb : b.id = i
      · rw [if_pos hb] at h
        obtain rfl : b = a := by exact Option.some.inj h
        exact ⟨List.mem_cons_self _ _, hb⟩
      · rw [if_neg hb] at h
        obtain ⟨h1, h2⟩ := ih h
        exact ⟨List.mem_cons_of_mem _ h1, h2⟩

theorem find_one_update_one_ne (f : Alert → Alert)
    (hf : ∀ a, (f a).id = a.id) (i j : Nat) (hij : i ≠ j) :
    ∀ store : List Alert, find_one (update_one store j f) i = find_one store i := by
  intro store
  induction store with
  | nil => rfl
  | cons a rest ih =>
      rw [update_one]
      by_cases hj : a.id = j
      · rw [if_pos hj, find_one, find_one, if_neg (by rw [hf a, hj]; exact (Ne.symm hij)),
          if_neg (by rw [hj]; exact (Ne.symm hij))]
      · rw [if_neg hj, find_one, find_one]
        by_cases hi : a.id = i
        · rw [if_pos hi, if_pos hi]
        · rw [if_neg hi, if_neg hi, ih]

theorem find_one_update_one_self (f : Alert → Alert)
    (hf : ∀ a, (f a).id = a.id) (j : Nat) :
    ∀ store : List Alert,
      find_one (update_one store j f) j = (find_one store j).map f := by
  intro store
  induction store with
  | nil => rfl
  | cons a rest ih =>
      rw [update_one]
      by_cases hj : a.id = j
      · rw [if_pos hj, find_one, if_pos (by rw [hf a]; exact hj), find_one, if_pos hj,
          Option.map_some']
      · rw [if_neg hj, find_one, if_neg hj, find_one, if_neg hj, ih]

theorem find_one_mark_alerted_ne (store : List Alert) (i j : Nat) (hij : i ≠ j) :
    find_one (mark_alerted store j) i = find_one store i := by
  unfold mark_alerted
  exact find_one_update_one_ne (fun a => { a with alerted := true })
    (fun _ => rfl) i j hij store

theorem find_one_mark_alerted_self (store : List Alert) (j : Nat) :
    find_one (mark_alerted store j) j =
      (find_one store j).map (fun a => { a with alerted := true }) := by
  unfold mark_alerted
  exact find_one_update_one_self (fun a => { a with alerted := true })
    (fun _ => rfl) j store

theorem find_one_set_last_price_ne (store : List Alert) (i j : Nat) (p : ℚ)
    (hij : i ≠ j) : find_one (set_last_price store j p) i = find_one store i := by
  unfold set_last_price
  exact find_one_update_one_ne (fun a => { a with last_price := some p })
    (fun _ => rfl) i j hij store

theorem find_one_set_last_price_self (store : List Alert) (j : Nat) (p : ℚ) :
    find_one (set_last_price store j p) j =
      (find_one store j).map (fun a => { a with last_price := some p }) := by
  unfold set_last_price
  exact find_one_update_one_self (fun a => { a with last_price := some p })
    (fun _ => rfl) j store

theorem mem_delete_one (store : List Alert) (i : Nat) (x : Alert)
    (h : x ∈ delete_one store i) : x ∈ store := by
  induction store with
  | nil => simp [delete_one] at h
  | cons a rest ih =>
      rw [delete_one] at h
      by_cases ha : a.id = i
      · rw [if_pos ha] at h
        exact List.mem_cons_of_mem _ h
      · rw [if_neg ha] at h
        rcases List.mem_cons.mp h with rfl | h2
        · exact List.mem_cons_self _ _
        · exact List.mem_cons_of_mem _ (ih h2)

theorem delete_one_split (l1 l2 : List Alert) (t : Alert)
    (h : ∀ a ∈ l1, a.id ≠ t.id) : delete_one (l1 ++ t :: l2) t.id = l1 ++ l2 := by
  induction l1 with
  | nil => simp [delete_one]
  | cons a rest ih =>
      rw [List.cons_append, delete_one,
        if_neg (h a (List.mem_cons_self _ _)), List.cons_append,
        ih (fun b hb => h b (List.mem_cons_of_mem _ hb))]

theorem find_one_of_nodup (store : List Alert) (A : Alert)
    (hnd : (store.map Alert.id).Nodup) (hA : A ∈ store) :
    find_one store A.id = some A := by
  induction store with
  | nil => cases hA
  | cons a rest ih =>
      rw [List.map_cons, List.nodup_cons] at hnd
      rcases List.mem_cons.mp hA with rfl | hA2
      · rw [find_one, if_pos rfl]
      · have hne : a.id ≠ A.id := by
          intro h
          exact hnd.1 (h ▸ List.mem_map_of_mem Alert.id hA2)
        rw [find_one, if_neg hne, ih hnd.2 hA2]

theorem ne_of_nodup_split (l1 l2 : List Alert) (A : Alert)
    (hnd : ((l1 ++ A :: l2).map Alert.id).Nodup) :
    ∀ a ∈ l1 ++ l2, a.id ≠ A.id := by
  intro a ha h
  rw [List.map_append, List.map_cons] at hnd
  obtain ⟨h1, h2, hdisj⟩ := List.nodup_append.mp hnd
  rcases List.mem_append.mp ha with hm | hm
  · exact hdisj (List.mem_map_of_mem _ hm) (by rw [h]; exact List.mem_cons_self _ _)
  · rw [List.nodup_cons] at h2
    exact h2.1 (h ▸ List.mem_map_of_mem Alert.id hm)

/-! ### One-step unfolding lemmas for the evaluation loop -/

theorem check_loop_nil (fetch : String → Except String ℚ)
    (send : Message → Except Unit Unit) (store : List Alert)
    (sent : List (Nat × Message)) :
    check_loop fetch send [] store sent = (store, sent, none) := rfl

theorem check_loop_cons_skip (fetch : String → Except String ℚ)
    (send : Message → Except Unit Unit) (a : Alert) (rest store : List Alert)
    (sent : List (Nat × Message)) (h : get_price fetch a.symbol = none) :
    check_loop fetch send (a :: rest) store sent =
      check_loop fetch send rest store sent := by
  simp only [check_loop, h]

theorem check_loop_cons_typeError (fetch : String → Except String ℚ)
    (send : Message → Except Unit Unit) (a : Alert) (rest store : List Alert)
    (sent : List (Nat × Message)) (c : ℚ)
    (h : get_price fetch a.symbol = some c)
    (hcr : crossed a.last_price c a.price = Except.error ()) :
    check_loop fetch send (a :: rest) store sent =
      (store, sent, some PyExn.typeError) := by
  simp only [check_loop, h, hcr]

theorem check_loop_cons_nocross (fetch : String → Except String ℚ)
    (send : Message → Except Unit Unit) (a : Alert) (rest store : List Alert)
    (sent : List (Nat × Message)) (c : ℚ)
    (h : get_price fetch a.symbol = some c)
    (hcr : crossed a.last_price c a.price = Except.ok false) :
    check_loop fetch send (a :: rest) store sent =
      check_loop fetch send rest (set_last_price store a.id c) sent := by
  simp only [check_loop, h, hcr]

theorem check_loop_cons_sendfail (fetch : String → Except String ℚ)
    (send : Message → Except Unit Unit) (a : Alert) (rest store : List Alert)
    (sent : List (Nat × Message)) (c : ℚ)
    (h : get_price fetch a.symbol = some c)
    (hcr : crossed a.last_price c a.price = Except.ok true)
    (hs : send { chat_id := a.chat_id, symbol := a.symbol,
                 target_price := a.price, current_price := c } =
      Except.error ()) :
    check_loop fetch send (a :: rest) store sent =
      (store, sent, some PyExn.deliveryError) := by
  simp only [check_loop, h, hcr, hs]

theorem check_loop_cons_sendok (fetch : String → Except String ℚ)
    (send : Message → Except Unit Unit) (a : Alert) (rest store : List Alert)
    (sent : List (Nat × Message)) (c : ℚ)
    (h : get_price fetch a.symbol = some c)
    (hcr : crossed a.last_price c a.price = Except.ok true)
    (hs : send { chat_id := a.chat_id, symbol := a.symbol,
                 target_price := a.price, current_price := c } =
      Except.ok ()) :
    check_loop fetch send (a :: rest) store sent =
      check_loop fetch send rest
        (set_last_price (mark_alerted store a.id) a.id c)
        (sent ++ [(a.id, { chat_id := a.chat_id, symbol := a.symbol,
                           target_price := a.price, current_price := c })]) := by
  simp only [check_loop, h, hcr, hs]

/-! ### Induction lemmas about the evaluation loop -/

theorem check_loop_untouched (fetch : String → Except String ℚ)
    (send : Message → Except Unit Unit) (i : Nat) :
    ∀ (l store : List Alert) (sent : List (Nat × Message)),
      (∀ a ∈ l, a.id ≠ i) →
      find_one (check_loop fetch send l store sent).1 i = find_one store i
      ∧ ∀ m ∈ (check_loop fetch send l store sent).2.1, m.1 = i → m ∈ sent := by
  intro l
  induction l with
  | nil =>
      intro store sent _
      rw [check_loop_nil]
      exact ⟨rfl, fun m hm _ => hm⟩
  | cons a rest ih =>
      intro store sent hi
      have ha : i ≠ a.id := fun h => hi a (List.mem_cons_self _ _) h.symm
      have hrest : ∀ b ∈ rest, b.id ≠ i := fun b hb => hi b (List.mem_cons_of_mem _ hb)
      cases hgp : get_price fetch a.symbol with
      | none =>
          rw [check_loop_cons_skip fetch send a rest store sent hgp]
          exact ih store sent hrest
      | some cp =>
          cases hcr : crossed a.last_price cp a.price with
          | error u =>
              cases u
              rw [check_loop_cons_typeError fetch send a rest store sent cp hgp hcr]
              exact ⟨rfl, fun m hm _ => hm⟩
          | ok b =>
              cases b with
              | false =>
                  rw [check_loop_cons_nocross fetch send a rest store sent cp hgp hcr]
                  obtain ⟨h1, h2⟩ := ih (set_last_price store a.id cp) sent hrest
                  exact ⟨h1.trans (find_one_set_last_price_ne store i a.id cp ha), h2⟩
              | true =>
                  cases hs : send ⟨a.chat_id, a.symbol, a.price, cp⟩ with
                  | error u =>
                      cases u
                      rw [check_loop_cons_sendfail fetch send a rest store sent cp hgp hcr hs]
                      exact ⟨rfl, fun m hm _ => hm⟩
                  | ok u =>
                      cases u
                      rw [check_loop_cons_sendok fetch send a rest store sent cp hgp hcr hs]
                      obtain ⟨h1, h2⟩ := ih
                        (set_last_price (mark_alerted store a.id) a.id cp)
                        (sent ++ [(a.id, ⟨a.chat_id, a.symbol, a.price, cp⟩)]) hrest
                      refine ⟨?_, ?_⟩
                      · rw [h1, find_one_set_last_price_ne _ _ _ _ ha,
                          find_one_mark_alerted_ne _ _ _ ha]
                      · intro m hm hmi
                        rcases List.mem_append.mp (h2 m hm hmi) with h | h
                        · exact h
                        · exfalso
                          rw [List.mem_singleton] at h
                          exact ha (by rw [← hmi, h])

theorem check_loop_skip (fetch : String → Except String ℚ)
    (send : Message → Except Unit Unit) (A : Alert)
    (hfetch : get_price fetch A.symbol = none) :
    ∀ (l1 l2 store : List Alert) (sent : List (Nat × Message)),
      check_loop fetch send (l1 ++ A :: l2) store sent =
        check_loop fetch send (l1 ++ l2) store sent := by
  intro l1
  induction l1 with
  | nil =>
      intro l2 store sent
      rw [List.nil_append, List.nil_append,
        check_loop_cons_skip fetch send A l2 store sent hfetch]
  | cons a tail ih =>
      intro l2 store sent
      rw [List.cons_append, List.cons_append]
      cases hgp : get_price fetch a.symbol with
      | none =>
          rw [check_loop_cons_skip fetch send a (tail ++ A :: l2) store sent hgp,
            check_loop_cons_skip fetch send a (tail ++ l2) store sent hgp, ih]
      | some cp =>
          cases hcr : crossed a.last_price cp a.price with
          | error u =>
              cases u
              rw [check_loop_cons_typeError fetch send a (tail ++ A :: l2) store sent cp hgp hcr,
                check_loop_cons_typeError fetch send a (tail ++ l2) store sent cp hgp hcr]
          | ok b =>
              cases b with
              | false =>
                  rw [check_loop_cons_nocross fetch send a (tail ++ A :: l2) store sent cp hgp hcr,
                    check_loop_cons_nocross fetch send a (tail ++ l2) store sent cp hgp hcr, ih]
              | true =>
                  cases hs : send ⟨a.chat_id, a.symbol, a.price, cp⟩ with
                  | error u =>
                      cases u
                      rw [check_loop_cons_sendfail fetch send a (tail ++ A :: l2) store sent cp hgp hcr hs,
                        check_loop_cons_sendfail fetch send a (tail ++ l2) store sent cp hgp hcr hs]
                  | ok u =>
                      cases u
                      rw [check_loop_cons_sendok fetch send a (tail ++ A :: l2) store sent cp hgp hcr hs,
                        check_loop_cons_sendok fetch send a (tail ++ l2) store sent cp hgp hcr hs, ih]

theorem check_loop_reaches (fetch : String → Except String ℚ)
    (send : Message → Except Unit Unit) (i : Nat) :
    ∀ (l1 rest store : List Alert) (sent : List (Nat × Message)),
      (∀ a ∈ l1, a.id ≠ i) →
      (∃ store1 sent1,
          check_loop fetch send (l1 ++ rest) store sent =
            check_loop fetch send rest store1 sent1
          ∧ find_one store1 i = find_one store i)
      ∨ (find_one (check_loop fetch send (l1 ++ rest) store sent).1 i =
            find_one store i
        ∧ (check_loop fetch send (l1 ++ rest) store sent).2.2 ≠ none) := by
  intro l1
  induction l1 with
  | nil =>
      intro rest store sent _
      exact Or.inl ⟨store, sent, rfl, rfl⟩
  | cons a tail ih =>
      intro rest store sent hi
      have ha : i ≠ a.id := fun h => hi a (List.mem_cons_self _ _) h.symm
      have htail : ∀ b ∈ tail, b.id ≠ i := fun b hb => hi b (List.mem_cons_of_mem _ hb)
      rw [List.cons_append]
      cases hgp : get_price fetch a.symbol with
      | none =>
          rw [check_loop_cons_skip fetch send a (tail ++ rest) store sent hgp]
          exact ih rest store sent htail
      | some cp =>
          cases hcr : crossed a.last_price cp a.price with
          | error u =>
              cases u
              rw [check_loop_cons_typeError fetch send a (tail ++ rest) store sent cp hgp hcr]
              exact Or.inr ⟨rfl, by simp⟩
          | ok b =>
              cases b with
              | false =>
                  rw [check_loop_cons_nocross fetch send a (tail ++ rest) store sent cp hgp hcr]
                  rcases ih rest (set_last_price store a.id cp) sent htail with
                    ⟨st1, s1, heq, hf⟩ | ⟨hf, hne⟩
                  · exact Or.inl ⟨st1, s1, heq,
                      hf.trans (find_one_set_last_price_ne store i a.id cp ha)⟩
                  · exact Or.inr
                      ⟨hf.trans (find_one_set_last_price_ne store i a.id cp ha), hne⟩
              | true =>
                  cases hs : send ⟨a.chat_id, a.symbol, a.price, cp⟩ with
                  | error u =>
                      cases u
                      rw [check_loop_cons_sendfail fetch send a (tail ++ rest) store sent cp
                        hgp hcr hs]
                      exact Or.inr ⟨rfl, by simp⟩
                  | ok u =>
                      cases u
                      rw [check_loop_cons_sendok fetch send a (tail ++ rest) store sent cp
                        hgp hcr hs]
                      rcases ih rest (set_last_price (mark_alerted store a.id) a.id cp)
                          (sent ++ [(a.id, ⟨a.chat_id, a.symbol, a.price, cp⟩)]) htail with
                        ⟨st1, s1, heq, hf⟩ | ⟨hf, hne⟩
                      · refine Or.inl ⟨st1, s1, heq, ?_⟩
                        rw [hf, find_one_set_last_price_ne _ _ _ _ ha,
                          find_one_mark_alerted_ne _ _ _ ha]
                      · refine Or.inr ⟨?_, hne⟩
                        rw [hf, find_one_set_last_price_ne _ _ _ _ ha,
                          find_one_mark_alerted_ne _ _ _ ha]

theorem check_loop_processed (fetch : String → Except String ℚ)
    (send : Message → Except Unit Unit) (A : Alert) (c : ℚ)
    (hfetch : get_price fetch A.symbol = some c) :
    ∀ (l1 l2 store : List Alert) (sent : List (Nat × Message)),
      (∀ a ∈ l1, a.id ≠ A.id) → (∀ a ∈ l2, a.id ≠ A.id) →
      find_one store A.id = some A →
      (check_loop fetch send (l1 ++ A :: l2) store sent).2.2 = none →
      ∃ cb, crossed A.last_price c A.price = Except.ok cb
        ∧ find_one (check_loop fetch send (l1 ++ A :: l2) store sent).1 A.id =
            some { A with alerted := (A.alerted || cb), last_price := some c } := by
  intro l1
  induction l1 with
  | nil =>
      intro l2 store sent _ hl2 hfind hdone
      rw [List.nil_append] at hdone ⊢
      cases hcr : crossed A.last_price c A.price with
      | error u =>
          cases u
          rw [check_loop_cons_typeError fetch send A l2 store sent c hfetch hcr] at hdone
          exact absurd hdone (by simp)
      | ok b =>
          cases b with
          | false =>
              rw [check_loop_cons_nocross fetch send A l2 store sent c hfetch hcr]
              refine ⟨false, rfl, ?_⟩
              obtain ⟨h1, -⟩ := check_loop_untouched fetch send A.id l2
                (set_last_price store A.id c) sent hl2
              rw [h1, find_one_set_last_price_self, hfind, Option.map_some']
              obtain ⟨aid, achat, asym, apr, aal, alp⟩ := A
              simp
          | true =>
              cases hs : send ⟨A.chat_id, A.symbol, A.price, c⟩ with
              | error u =>
                  cases u
                  rw [check_loop_cons_sendfail fetch send A l2 store sent c hfetch hcr hs]
                    at hdone
                  exact absurd hdone (by simp)
              | ok u =>
                  cases u
                  rw [check_loop_cons_sendok fetch send A l2 store sent c hfetch hcr hs]
                  refine ⟨true, rfl, ?_⟩
                  obtain ⟨h1, -⟩ := check_loop_untouched fetch send A.id l2
                    (set_last_price (mark_alerted store A.id) A.id c)
                    (sent ++ [(A.id, ⟨A.chat_id, A.symbol, A.price, c⟩)]) hl2
                  rw [h1, find_one_set_last_price_self, find_one_mark_alerted_self, hfind]
                  obtain ⟨aid, achat, asym, apr, aal, alp⟩ := A
                  simp
  | cons a tail ih =>
      intro l2 store sent hl1 hl2 hfind hdone
      have ha : a.id ≠ A.id := hl1 a (List.mem_cons_self _ _)
      have htail : ∀ b ∈ tail, b.id ≠ A.id := fun b hb => hl1 b (List.mem_cons_of_mem _ hb)
      rw [List.cons_append] at hdone ⊢
      cases hgp : get_price fetch a.symbol with
      | none =>
          rw [check_loop_cons_skip fetch send a (tail ++ A :: l2) store sent hgp]
            at hdone ⊢
          exact ih l2 store sent htail hl2 hfind hdone
      | some cp =>
          cases hcr2 : crossed a.last_price cp a.price with
          | error u =>
              cases u
              rw [check_loop_cons_typeError fetch send a (tail ++ A :: l2) store sent cp
                hgp hcr2] at hdone
              exact absurd hdone (by simp)
          | ok b =>
              cases b with
              | false =>
                  rw [check_loop_cons_nocross fetch send a (tail ++ A :: l2) store sent cp
                    hgp hcr2] at hdone ⊢
                  refine ih l2 (set_last_price store a.id cp) sent htail hl2 ?_ hdone
                  rw [find_one_set_last_price_ne _ _ _ _ (Ne.symm ha), hfind]
              | true =>
                  cases hs : send ⟨a.chat_id, a.symbol, a.price, cp⟩ with
                  | error u =>
                      cases u
                      rw [check_loop_cons_sendfail fetch send a (tail ++ A :: l2) store sent cp
                        hgp hcr2 hs] at hdone
                      exact absurd hdone (by simp)
                  | ok u =>
                      cases u
                      rw [check_loop_cons_sendok fetch send a (tail ++ A :: l2) store sent cp
                        hgp hcr2 hs] at hdone ⊢
                      refine ih l2 (set_last_price (mark_alerted store a.id) a.id cp)
                        (sent ++ [(a.id, ⟨a.chat_id, a.symbol, a.price, cp⟩)])
                        htail hl2 ?_ hdone
                      rw [find_one_set_last_price_ne _ _ _ _ (Ne.symm ha),
                        find_one_mark_alerted_ne _ _ _ (Ne.symm ha), hfind]

/-! ### Claim theorems -/

/-- C1: for non-null previous, current and target prices, the crossing
condition of check_prices fires exactly when (previous > target and
current <= target) or (previous < target and current >= target); a
previous equal to the target never fires, and a current equal to the
target fires whenever previous differs from the target. -/
theorem crossing_condition_characterization (prev current target : ℚ) :
    (crossed (some prev) current target = Except.ok true ↔
      ((prev > target ∧ current ≤ target) ∨ (prev < target ∧ current ≥ target)))
    ∧ (prev = target → crossed (some prev) current target = Except.ok false)
    ∧ (prev ≠ target → current = target →
        crossed (some prev) current target = Except.ok true) := by
  refine ⟨?_, ?_, ?_⟩
  · simp [crossed]
  · intro h
    have hno : ¬ ((prev > target ∧ current ≤ target) ∨
        (prev < target ∧ current ≥ target)) := by
      rintro (⟨h1, -⟩ | ⟨h1, -⟩) <;> rw [h] at h1 <;> exact lt_irrefl target h1
    exact congrArg Except.ok (decide_eq_false hno)
  · intro hne hc
    rcases hne.lt_or_lt with h | h
    · exact congrArg Except.ok (decide_eq_true (Or.inr ⟨h, hc.ge⟩))
    · exact congrArg Except.ok (decide_eq_true (Or.inl ⟨h, hc.le⟩))

/-- Witness for C1 at the boundary examples of the specification:
previous 80, target 90, current 90 fires; previous 90, target 90,
current 95 does not. -/
theorem crossing_condition_characterization_witness :
    crossed (some 80) 90 90 = Except.ok true
    ∧ crossed (some 90) 95 90 = Except.ok false := by
  constructor
  · exact (crossing_condition_characterization 80 90 90).2.2 (by norm_num) rfl
  · exact (crossing_condition_characterization 90 95 90).2.1 rfl

/-- C2, failing input for the code: an alert whose seed price was
unavailable at creation has a null last_price, and the comparison at
src/bot.py line 153 then raises TypeError in Python 3 instead of
evaluating to the none outcome; the cycle aborts with the store
unchanged. -/
theorem null_last_price_raises :
    crossed none 95 90 = Except.error ()
    ∧ check_prices (fun _ => Except.ok 95) (fun _ => Except.ok ())
        [{ id := 1, chat_id := 7, symbol := "BTC", price := 90,
           alerted := false, last_price := none }] =
      ([{ id := 1, chat_id := 7, symbol := "BTC", price := 90,
          alerted := false, last_price := none }], [], some PyExn.typeError) :=
  ⟨rfl, rfl⟩

/-- C7: a triggered alert is never selected again: the snapshot
check_prices iterates over is exactly the untriggered records, the user
listing is exactly the owner's untriggered records, and an alert with
alerted true belongs to neither, regardless of any price argument. -/
theorem triggered_excluded (fetch : String → Except String ℚ)
    (send : Message → Except Unit Unit) (store : List Alert) (chat_id : Int)
    (a : Alert) :
    (a ∈ active_alerts store ↔ a ∈ store ∧ a.alerted = false)
    ∧ (a ∈ list_alerts chat_id store ↔
        a ∈ store ∧ a.chat_id = chat_id ∧ a.alerted = false)
    ∧ (a.alerted = true → a ∉ active_alerts store ∧ a ∉ list_alerts chat_id store)
    ∧ check_prices fetch send store =
        check_loop fetch send (active_alerts store) store [] := by
  refine ⟨?_, ?_, ?_, rfl⟩
  · simp [active_alerts, List.mem_filter]
  · simp [list_alerts, List.mem_filter, Bool.and_eq_true, beq_iff_eq,
      and_assoc]
  · intro h
    refine ⟨fun hmem => ?_, fun hmem => ?_⟩
    · have hp := (List.mem_filter.mp hmem).2
      rw [h] at hp
      simp at hp
    · have hp := (List.mem_filter.mp hmem).2
      rw [h] at hp
      simp at hp

/-- Witness for C7: a concrete triggered alert is excluded from the
evaluation snapshot. -/
theorem triggered_excluded_witness :
    ({ id := 1, chat_id := 7, symbol := "X", price := 90, alerted := true,
       last_price := some 80 } : Alert) ∉
      active_alerts [⟨1, 7, "X", 90, true, some 80⟩] :=
  ((triggered_excluded (fun _ => Except.ok 0) (fun _ => Except.ok ())
    [⟨1, 7, "X", 90, true, some 80⟩] 7
    ⟨1, 7, "X", 90, true, some 80⟩).2.2.1 rfl).1

/-- C8: get_price never propagates a failure of the underlying exchange
call: a raising fetch degrades to None and a successful fetch returns the
fetched last price. -/
theorem get_price_total (fetch : String → Except String ℚ) (symbol : String) :
    (∀ p, fetch symbol = Except.ok p → get_price fetch symbol = some p)
    ∧ (∀ e, fetch symbol = Except.error e → get_price fetch symbol = none) := by
  constructor
  · intro p h
    rw [get_price, h]
  · intro e h
    rw [get_price, h]

/-- Witness for C8 with a concrete raising fetch and a concrete
successful fetch. -/
theorem get_price_total_witness :
    get_price (fun _ => Except.error "net down") "BTC" = none
    ∧ get_price (fun _ => Except.ok 42) "BTC" = some 42 :=
  ⟨(get_price_total (fun _ => Except.error "net down") "BTC").2 "net down" rfl,
   (get_price_total (fun _ => Except.ok 42) "BTC").1 42 rfl⟩

/-- C9: a creation attempt whose target-price text does not parse as a
number is rejected at the handler: the store is returned unchanged (no
record inserted) and the reply is the error message. -/
theorem invalid_price_rejected (pyFloat : String → Option ℚ)
    (fetch : String → Except String ℚ) (symbol text : String) (chat_id : Int)
    (next_id : Nat) (store : List Alert) (h : pyFloat text = none) :
    handle_price_input pyFloat fetch (some symbol) text chat_id next_id store =
      (store, CreateReply.invalid_price) := by
  rw [handle_price_input, h]

/-- Witness for C9 with a concrete non-numeric input. -/
theorem invalid_price_rejected_witness :
    handle_price_input (fun _ => none) (fun _ => Except.error "e")
      (some "BTC") "not a number" 7 1 [] = ([], CreateReply.invalid_price) :=
  invalid_price_rejected (fun _ => none) (fun _ => Except.error "e")
    "BTC" "not a number" 7 1 [] rfl

/-- C3, counterexample: a cycle in which the crossing is detected and the
notification send fails ends with the delivery error, and the store still
holds the alert with alerted false — the code reaches update_one marking
alerted true only after an successful send_message, so a failed send
leaves the alert unmarked, contrary to the claim. -/
theorem delivery_failure_counterexample :
    check_prices (fun _ => Except.ok 50000) (fun _ => Except.error ())
        [{ id := 1, chat_id := 7, symbol := "BTC-PERP", price := 50000,
           alerted := false, last_price := some 49000 }] =
      ([{ id := 1, chat_id := 7, symbol := "BTC-PERP", price := 50000,
          alerted := false, last_price := some 49000 }], [],
        some PyExn.deliveryError) := rfl

/-- C3 amended: when the crossing test fires for an alert and the
notification send raises, the cycle aborts at that point with the store
exactly as it was before that iteration — in particular the alert is not
marked triggered and its last_price is not updated, so the alert remains
eligible for re-evaluation (and another notification attempt) in a later
cycle. -/
theorem delivery_failure_aborts_unmarked (fetch : String → Except String ℚ)
    (send : Message → Except Unit Unit) (alert : Alert)
    (rest store : List Alert) (sent : List (Nat × Message)) (c : ℚ)
    (hfetch : get_price fetch alert.symbol = some c)
    (hcross : crossed alert.last_price c alert.price = Except.ok true)
    (hsend : send { chat_id := alert.chat_id, symbol := alert.symbol,
                    target_price := alert.price, current_price := c } =
      Except.error ()) :
    check_loop fetch send (alert :: rest) store sent =
      (store, sent, some PyExn.deliveryError) :=
  check_loop_cons_sendfail fetch send alert rest store sent c hfetch hcross hsend

/-- Witness for the amended C3 at the concrete failing-delivery input. -/
theorem delivery_failure_aborts_unmarked_witness :
    check_loop (fun _ => Except.ok 50000) (fun _ => Except.error ())
        [{ id := 1, chat_id := 7, symbol := "BTC-PERP", price := 50000,
           alerted := false, last_price := some 49000 }]
        [{ id := 1, chat_id := 7, symbol := "BTC-PERP", price := 50000,
           alerted := false, last_price := some 49000 }] [] =
      ([{ id := 1, chat_id := 7, symbol := "BTC-PERP", price := 50000,
          alerted := false, last_price := some 49000 }], [],
        some PyExn.deliveryError) :=
  delivery_failure_aborts_unmarked (fun _ => Except.ok 50000)
    (fun _ => Except.error ())
    { id := 1, chat_id := 7, symbol := "BTC-PERP", price := 50000,
      alerted := false, last_price := some 49000 }
    [] _ [] 50000 rfl rfl rfl

theorem erase_append_cons (l1 l2 : List Alert) (A : Alert) (h : A ∉ l1) :
    (l1 ++ A :: l2).erase A = l1 ++ l2 := by
  induction l1 with
  | nil => simp [List.erase_cons_head]
  | cons a rest ih =>
      have hne : a ≠ A := fun he => h (he ▸ List.mem_cons_self _ _)
      rw [List.cons_append, List.erase_cons_tail, ih
        (fun hm => h (List.mem_cons_of_mem _ hm)), List.cons_append]
      simp [hne]

/-- C5: when the price fetch for alert A returns None, the cycle leaves
A's record exactly as it was, sends no message during A's iteration, and
behaves on everything else exactly as the cycle in which A is removed
from the snapshot: a fetch failure of one alert cannot disturb any other
alert of the same cycle. -/
theorem fetch_failure_isolated (fetch : String → Except String ℚ)
    (send : Message → Except Unit Unit) (store : List Alert) (A : Alert)
    (hnd : (store.map Alert.id).Nodup) (hA : A ∈ store)
    (hact : A.alerted = false) (hfetch : get_price fetch A.symbol = none) :
    find_one (check_prices fetch send store).1 A.id = some A
    ∧ (∀ m ∈ (check_prices fetch send store).2.1, m.1 ≠ A.id)
    ∧ check_prices fetch send store =
        check_loop fetch send ((active_alerts store).erase A) store [] := by
  have hAact : A ∈ active_alerts store :=
    List.mem_filter.mpr ⟨hA, by rw [hact]; rfl⟩
  obtain ⟨l1, l2, hsplit⟩ := List.append_of_mem hAact
  have hsub : List.Sublist ((active_alerts store).map Alert.id)
      (store.map Alert.id) :=
    (List.filter_sublist store).map Alert.id
  have hnd_act : ((l1 ++ A :: l2).map Alert.id).Nodup := by
    rw [← hsplit]
    exact hnd.sublist hsub
  have hne : ∀ a ∈ l1 ++ l2, a.id ≠ A.id := ne_of_nodup_split l1 l2 A hnd_act
  have hnotl1 : A ∉ l1 := fun hm => hne A (List.mem_append_left _ hm) rfl
  have hskip : check_prices fetch send store =
      check_loop fetch send (l1 ++ l2) store [] := by
    rw [check_prices, hsplit]
    exact check_loop_skip fetch send A hfetch l1 l2 store []
  obtain ⟨h1, h2⟩ := check_loop_untouched fetch send A.id (l1 ++ l2) store [] hne
  refine ⟨?_, ?_, ?_⟩
  · rw [hskip, h1]
    exact find_one_of_nodup store A hnd hA
  · intro m hm hmi
    rw [hskip] at hm
    exact absurd (h2 m hm hmi) (List.not_mem_nil m)
  · rw [hskip, hsplit, erase_append_cons l1 l2 A hnotl1]

/-- Witness for C5: alert 1 (symbol AAA) has a failing fetch, alert 2
(symbol BBB) is evaluated normally in the same cycle. -/
theorem fetch_failure_isolated_witness :
    find_one (check_prices
        (fun s => if s = "AAA" then Except.error "down" else Except.ok 40)
        (fun _ => Except.ok ())
        [⟨1, 7, "AAA", 90, false, some 80⟩, ⟨2, 7, "BBB", 50, false, some 60⟩]).1
        1 = some ⟨1, 7, "AAA", 90, false, some 80⟩
    ∧ (∀ m ∈ (check_prices
          (fun s => if s = "AAA" then Except.error "down" else Except.ok 40)
          (fun _ => Except.ok ())
          [⟨1, 7, "AAA", 90, false, some 80⟩,
           ⟨2, 7, "BBB", 50, false, some 60⟩]).2.1, m.1 ≠ 1)
    ∧ check_prices
          (fun s => if s = "AAA" then Except.error "down" else Except.ok 40)
          (fun _ => Except.ok ())
          [⟨1, 7, "AAA", 90, false, some 80⟩, ⟨2, 7, "BBB", 50, false, some 60⟩] =
        check_loop
          (fun s => if s = "AAA" then Except.error "down" else Except.ok 40)
          (fun _ => Except.ok ())
          ((active_alerts
            [⟨1, 7, "AAA", 90, false, some 80⟩,
             ⟨2, 7, "BBB", 50, false, some 60⟩]).erase
            ⟨1, 7, "AAA", 90, false, some 80⟩)
          [⟨1, 7, "AAA", 90, false, some 80⟩, ⟨2, 7, "BBB", 50, false, some 60⟩]
          [] :=
  fetch_failure_isolated
    (fun s => if s = "AAA" then Except.error "down" else Except.ok 40)
    (fun _ => Except.ok ())
    [⟨1, 7, "AAA", 90, false, some 80⟩, ⟨2, 7, "BBB", 50, false, some 60⟩]
    ⟨1, 7, "AAA", 90, false, some 80⟩
    (by decide) (by decide) rfl rfl

/-- C6: in a cycle that completes without an exception, every untriggered
alert whose fetch succeeded has its stored last_price overwritten with the
newly fetched price, whether or not the crossing fired (the alerted field
is the only other field that may have changed). -/
theorem last_price_updated_on_success (fetch : String → Except String ℚ)
    (send : Message → Except Unit Unit) (store : List Alert) (A : Alert)
    (c : ℚ) (hnd : (store.map Alert.id).Nodup) (hA : A ∈ store)
    (hact : A.alerted = false) (hfetch : get_price fetch A.symbol = some c)
    (hdone : (check_prices fetch send store).2.2 = none) :
    ∃ b, find_one (check_prices fetch send store).1 A.id =
      some { A with alerted := b, last_price := some c } := by
  have hAact : A ∈ active_alerts store :=
    List.mem_filter.mpr ⟨hA, by rw [hact]; rfl⟩
  obtain ⟨l1, l2, hsplit⟩ := List.append_of_mem hAact
  have hsub : List.Sublist ((active_alerts store).map Alert.id)
      (store.map Alert.id) :=
    (List.filter_sublist store).map Alert.id
  have hnd_act : ((l1 ++ A :: l2).map Alert.id).Nodup := by
    rw [← hsplit]
    exact hnd.sublist hsub
  have hne : ∀ a ∈ l1 ++ l2, a.id ≠ A.id := ne_of_nodup_split l1 l2 A hnd_act
  have hl1 : ∀ a ∈ l1, a.id ≠ A.id := fun a hm => hne a (List.mem_append_left _ hm)
  have hl2 : ∀ a ∈ l2, a.id ≠ A.id := fun a hm => hne a (List.mem_append_right _ hm)
  have hfind : find_one store A.id = some A := find_one_of_nodup store A hnd hA
  simp only [check_prices] at hdone ⊢
  rw [hsplit] at hdone ⊢
  obtain ⟨cb, -, hres⟩ := check_loop_processed fetch send A c hfetch l1 l2
    store [] hl1 hl2 hfind hdone
  exact ⟨A.alerted || cb, hres⟩

/-- Witness for C6: a completing cycle with a successful fetch overwrites
last_price 100 with the fetched 95. -/
theorem last_price_updated_on_success_witness :
    ∃ b, find_one (check_prices (fun _ => Except.ok 95) (fun _ => Except.ok ())
        [⟨1, 7, "S", 90, false, some 100⟩]).1 1 =
      some { id := 1, chat_id := 7, symbol := "S", price := 90, alerted := b,
             last_price := some 95 } :=
  last_price_updated_on_success (fun _ => Except.ok 95) (fun _ => Except.ok ())
    [⟨1, 7, "S", 90, false, some 100⟩] ⟨1, 7, "S", 90, false, some 100⟩ 95
    (by decide) (by decide) rfl rfl rfl

/-- C4: the alerted flag is monotonic.  Creation inserts the new record
with alerted false (and touches no existing record); a cycle leaves every
triggered record exactly as it is (never true back to false, and never a
second trigger); a record that a cycle turns from untriggered to
triggered had its crossing condition fire on the fetched price; and
deletion only removes records, never rewriting one. -/
theorem alerted_monotonic (pyFloat : String → Option ℚ)
    (fetch : String → Except String ℚ) (send : Message → Except Unit Unit)
    (pyInt : String → Option Int) (symbol text : String) (chat_id : Int)
    (next_id : Nat) (store : List Alert) (q : ℚ) (args : List String)
    (i : Nat) (a : Alert) :
    (pyFloat text = some q →
      (handle_price_input pyFloat fetch (some symbol) text chat_id next_id
          store).1 =
        store ++ [{ id := next_id, chat_id := chat_id, symbol := symbol,
                    price := q, alerted := false,
                    last_price := get_price fetch symbol }])
    ∧ ((store.map Alert.id).Nodup → find_one store i = some a →
        a.alerted = true →
        find_one (check_prices fetch send store).1 i = some a)
    ∧ ((store.map Alert.id).Nodup → find_one store i = some a →
        a.alerted = false →
        ∀ a', find_one (check_prices fetch send store).1 i = some a' →
          a'.alerted = true →
          ∃ c, get_price fetch a.symbol = some c
            ∧ crossed a.last_price c a.price = Except.ok true)
    ∧ (∀ x ∈ (delete_alert pyInt chat_id args store).1, x ∈ store) := by
  refine ⟨?_, ?_, ?_, ?_⟩
  · intro h
    rw [handle_price_input, h]
  · intro hnd hfind htrig
    obtain ⟨hamem, haid⟩ := find_one_mem store i a hfind
    have hni : ∀ b ∈ active_alerts store, b.id ≠ i := by
      intro b hb hbi
      obtain ⟨hbmem, hbact⟩ := List.mem_filter.mp hb
      have hba : b = a :=
        List.inj_on_of_nodup_map hnd hbmem hamem (hbi.trans haid.symm)
      rw [hba, htrig] at hbact
      simp at hbact
    obtain ⟨h1, -⟩ :=
      check_loop_untouched fetch send i (active_alerts store) store [] hni
    simp only [check_prices]
    rw [h1, hfind]
  · intro hnd hfind hfalse a' hfind2 htrig2
    obtain ⟨hamem, haid⟩ := find_one_mem store i a hfind
    subst haid
    have hAact : a ∈ active_alerts store :=
      List.mem_filter.mpr ⟨hamem, by rw [hfalse]; rfl⟩
    obtain ⟨l1, l2, hsplit⟩ := List.append_of_mem hAact
    have hsub : List.Sublist ((active_alerts store).map Alert.id)
        (store.map Alert.id) :=
      (List.filter_sublist store).map Alert.id
    have hnd_act : ((l1 ++ a :: l2).map Alert.id).Nodup := by
      rw [← hsplit]
      exact hnd.sublist hsub
    have hne : ∀ b ∈ l1 ++ l2, b.id ≠ a.id := ne_of_nodup_split l1 l2 a hnd_act
    have hl1 : ∀ b ∈ l1, b.id ≠ a.id :=
      fun b hm => hne b (List.mem_append_left _ hm)
    have hl2 : ∀ b ∈ l2, b.id ≠ a.id :=
      fun b hm => hne b (List.mem_append_right _ hm)
    simp only [check_prices] at hfind2
    rw [hsplit] at hfind2
    rcases check_loop_reaches fetch send a.id l1 (a :: l2) store [] hl1 with
      ⟨st1, s1, heq, hf⟩ | ⟨hf, -⟩
    · rw [heq] at hfind2
      have hfind1 : find_one st1 a.id = some a := hf.trans hfind
      cases hgp : get_price fetch a.symbol with
      | none =>
          rw [check_loop_cons_skip fetch send a l2 st1 s1 hgp] at hfind2
          obtain ⟨h1, -⟩ := check_loop_untouched fetch send a.id l2 st1 s1 hl2
          rw [h1, hfind1] at hfind2
          obtain rfl : a = a' := Option.some.inj hfind2
          rw [hfalse] at htrig2
          exact absurd htrig2 Bool.false_ne_true
      | some cp =>
          cases hcr : crossed a.last_price cp a.price with
          | error u =>
              cases u
              rw [check_loop_cons_typeError fetch send a l2 st1 s1 cp hgp hcr]
                at hfind2
              have haa : (some a : Option Alert) = some a' :=
                hfind1.symm.trans hfind2
              obtain rfl : a = a' := Option.some.inj haa
              rw [hfalse] at htrig2
              exact absurd htrig2 Bool.false_ne_true
          | ok b =>
              cases b with
              | true => exact ⟨cp, rfl, hcr⟩
              | false =>
                  rw [check_loop_cons_nocross fetch send a l2 st1 s1 cp hgp hcr]
                    at hfind2
                  obtain ⟨h1, -⟩ := check_loop_untouched fetch send a.id l2
                    (set_last_price st1 a.id cp) s1 hl2
                  rw [h1, find_one_set_last_price_self, hfind1,
                    Option.map_some'] at hfind2
                  obtain rfl : ({ a with last_price := some cp } : Alert) = a' :=
                    Option.some.inj hfind2
                  have : a.alerted = true := htrig2
                  rw [hfalse] at this
                  exact absurd this Bool.false_ne_true
    · rw [hf, hfind] at hfind2
      obtain rfl : a = a' := Option.some.inj hfind2
      rw [hfalse] at htrig2
      exact absurd htrig2 Bool.false_ne_true
  · cases args with
    | nil =>
        intro x hx
        exact hx
    | cons arg rest =>
        cases hp : pyInt arg with
        | none =>
            intro x hx
            simp only [delete_alert, hp] at hx
            exact hx
        | some n =>
            intro x hx
            simp only [delete_alert, hp] at hx
            by_cases hc : 0 ≤ n - 1
              ∧ n - 1 < ((list_alerts chat_id store).length : Int)
            · rw [dif_pos hc] at hx
              exact mem_delete_one store _ x hx
            · rw [dif_neg hc] at hx
              exact hx

/-- Witness for C4: a concrete creation inserts with alerted false, a
concrete cycle leaves a triggered record untouched, a concrete trigger
happened through a firing crossing, and deletion only removes records. -/
theorem alerted_monotonic_witness :
    ((handle_price_input (fun _ => some 90) (fun _ => Except.ok 95)
        (some "S") "90" 7 2 [⟨1, 7, "S", 90, true, some 80⟩]).1 =
      [⟨1, 7, "S", 90, true, some 80⟩] ++
        [{ id := 2, chat_id := 7, symbol := "S", price := 90,
           alerted := false,
           last_price := get_price (fun _ => Except.ok 95) "S" }])
    ∧ find_one (check_prices (fun _ => Except.ok 95) (fun _ => Except.ok ())
        [⟨1, 7, "S", 90, true, some 80⟩]).1 1 =
      some ⟨1, 7, "S", 90, true, some 80⟩
    ∧ (∃ c, get_price (fun _ => Except.ok 95) "S" = some c
        ∧ crossed (some 80) c 90 = Except.ok true)
    ∧ (⟨1, 7, "S", 90, true, some 80⟩ : Alert) ∈
        [⟨1, 7, "S", 90, true, some 80⟩] := by
  refine ⟨?_, ?_, ?_, ?_⟩
  · exact (alerted_monotonic (fun _ => some 90) (fun _ => Except.ok 95)
      (fun _ => Except.ok ()) (fun _ => some 1) "S" "90" 7 2
      [⟨1, 7, "S", 90, true, some 80⟩] 90 ["1"] 1
      ⟨1, 7, "S", 90, true, some 80⟩).1 rfl
  · exact (alerted_monotonic (fun _ => some 90) (fun _ => Except.ok 95)
      (fun _ => Except.ok ()) (fun _ => some 1) "S" "90" 7 2
      [⟨1, 7, "S", 90, true, some 80⟩] 90 ["1"] 1
      ⟨1, 7, "S", 90, true, some 80⟩).2.1 (by decide) rfl rfl
  · exact (alerted_monotonic (fun _ => some 90) (fun _ => Except.ok 95)
      (fun _ => Except.ok ()) (fun _ => some 1) "S" "90" 7 2
      [⟨1, 7, "S", 90, false, some 80⟩] 90 ["1"] 1
      ⟨1, 7, "S", 90, false, some 80⟩).2.2.1 (by decide) rfl rfl
      ⟨1, 7, "S", 90, true, some 95⟩ rfl rfl
  · exact (alerted_monotonic (fun _ => some 90) (fun _ => Except.ok 95)
      (fun _ => Except.ok ()) (fun _ => some 1) "S" "90" 7 2
      [⟨1, 7, "S", 90, true, some 80⟩] 90 ["1"] 1
      ⟨1, 7, "S", 90, true, some 80⟩).2.2.2
      ⟨1, 7, "S", 90, true, some 80⟩ (by decide)

/-- C10: delete_alert can only delete the n-th (1-based) untriggered
alert of the invoking chat: on a missing or non-integer argument the
store is unchanged and the usage reply is sent; on an out-of-range index
the store is unchanged and the invalid-number reply is sent; in range,
the deleted record is exactly the n-th entry of the chat's untriggered
listing — it belongs to that chat, is untriggered, and every other
record survives unchanged. -/
theorem delete_alert_spec (pyInt : String → Option Int) (chat_id : Int)
    (store : List Alert) (arg : String) (rest : List String) (n : Int) :
    (delete_alert pyInt chat_id [] store = (store, DeleteReply.usage))
    ∧ (pyInt arg = none →
        delete_alert pyInt chat_id (arg :: rest) store =
          (store, DeleteReply.usage))
    ∧ (pyInt arg = some n →
        ¬(0 ≤ n - 1 ∧ n - 1 < ((list_alerts chat_id store).length : Int)) →
        delete_alert pyInt chat_id (arg :: rest) store =
          (store, DeleteReply.invalid_number))
    ∧ (pyInt arg = some n → (store.map Alert.id).Nodup →
        (0 ≤ n - 1 ∧ n - 1 < ((list_alerts chat_id store).length : Int)) →
        ∃ target l1 l2,
          (list_alerts chat_id store).get? (n - 1).toNat = some target
          ∧ target.chat_id = chat_id ∧ target.alerted = false
          ∧ store = l1 ++ target :: l2
          ∧ delete_alert pyInt chat_id (arg :: rest) store =
              (l1 ++ l2, DeleteReply.deleted)) := by
  refine ⟨rfl, ?_, ?_, ?_⟩
  · intro h
    simp only [delete_alert, h]
  · intro h hc
    simp only [delete_alert, h]
    rw [dif_neg hc]
  · intro h hnd hc
    have hlt : (n - 1).toNat < (list_alerts chat_id store).length := by omega
    obtain ⟨target, htdef⟩ : ∃ t : Alert,
        (list_alerts chat_id store).get ⟨(n - 1).toNat, hlt⟩ = t := ⟨_, rfl⟩
    have heq : (list_alerts chat_id store).get? (n - 1).toNat = some target := by
      rw [List.get?_eq_get hlt, htdef]
    have htmem : target ∈ list_alerts chat_id store := by
      rw [← htdef]
      exact List.get_mem _ _ _
    obtain ⟨hsmem, hpred⟩ := List.mem_filter.mp htmem
    rw [Bool.and_eq_true, beq_iff_eq, Bool.not_eq_true'] at hpred
    obtain ⟨l1, l2, hsplit⟩ := List.append_of_mem hsmem
    have hnd2 : ((l1 ++ target :: l2).map Alert.id).Nodup := hsplit ▸ hnd
    have hnotl1 : ∀ b ∈ l1, b.id ≠ target.id :=
      fun b hb => ne_of_nodup_split l1 l2 _ hnd2 b (List.mem_append_left _ hb)
    have hdel : delete_one store target.id = l1 ++ l2 := by
      rw [hsplit]
      exact delete_one_split l1 l2 _ hnotl1
    refine ⟨target, l1, l2, heq, hpred.1, hpred.2, hsplit, ?_⟩
    simp only [delete_alert, h]
    rw [dif_pos hc]
    have hfin : delete_one store
        ((list_alerts chat_id store).get ⟨(n - 1).toNat, hlt⟩).id = l1 ++ l2 := by
      rw [htdef]
      exact hdel
    exact congrArg (fun s => (s, DeleteReply.deleted)) hfin

/-- Witness for C10 on a four-record store (one foreign-owner record, one
triggered record): a non-integer argument and an out-of-range index leave
the store unchanged, and index 2 deletes the second untriggered record of
chat 7. -/
theorem delete_alert_spec_witness :
    delete_alert (fun _ => none) 7 ["x"]
        [⟨1, 8, "A", 5, false, none⟩, ⟨2, 7, "B", 6, false, none⟩,
         ⟨3, 7, "C", 7, true, none⟩, ⟨4, 7, "D", 8, false, none⟩] =
      ([⟨1, 8, "A", 5, false, none⟩, ⟨2, 7, "B", 6, false, none⟩,
        ⟨3, 7, "C", 7, true, none⟩, ⟨4, 7, "D", 8, false, none⟩],
        DeleteReply.usage)
    ∧ delete_alert (fun _ => some 5) 7 ["5"]
        [⟨1, 8, "A", 5, false, none⟩, ⟨2, 7, "B", 6, false, none⟩,
         ⟨3, 7, "C", 7, true, none⟩, ⟨4, 7, "D", 8, false, none⟩] =
      ([⟨1, 8, "A", 5, false, none⟩, ⟨2, 7, "B", 6, false, none⟩,
        ⟨3, 7, "C", 7, true, none⟩, ⟨4, 7, "D", 8, false, none⟩],
        DeleteReply.invalid_number)
    ∧ ∃ target l1 l2,
        (list_alerts 7
          [⟨1, 8, "A", 5, false, none⟩, ⟨2, 7, "B", 6, false, none⟩,
           ⟨3, 7, "C", 7, true, none⟩,
           ⟨4, 7, "D", 8, false, none⟩]).get? (2 - 1 : Int).toNat = some target
        ∧ target.chat_id = 7 ∧ target.alerted = false
        ∧ [⟨1, 8, "A", 5, false, none⟩, ⟨2, 7, "B", 6, false, none⟩,
           ⟨3, 7, "C", 7, true, none⟩, ⟨4, 7, "D", 8, false, none⟩] =
            l1 ++ target :: l2
        ∧ delete_alert (fun _ => some 2) 7 ["2"]
            [⟨1, 8, "A", 5, false, none⟩, ⟨2, 7, "B", 6, false, none⟩,
             ⟨3, 7, "C", 7, true, none⟩, ⟨4, 7, "D", 8, false, none⟩] =
          (l1 ++ l2, DeleteReply.deleted) := by
  refine ⟨?_, ?_, ?_⟩
  · exact (delete_alert_spec (fun _ => none) 7
      [⟨1, 8, "A", 5, false, none⟩, ⟨2, 7, "B", 6, false, none⟩,
       ⟨3, 7, "C", 7, true, none⟩, ⟨4, 7, "D", 8, false, none⟩]
      "x" [] 0).2.1 rfl
  · exact (delete_alert_spec (fun _ => some 5) 7
      [⟨1, 8, "A", 5, false, none⟩, ⟨2, 7, "B", 6, false, none⟩,
       ⟨3, 7, "C", 7, true, none⟩, ⟨4, 7, "D", 8, false, none⟩]
      "5" [] 5).2.2.1 rfl (by decide)
  · exact (delete_alert_spec (fun _ => some 2) 7
      [⟨1, 8, "A", 5, false, none⟩, ⟨2, 7, "B", 6, false, none⟩,
       ⟨3, 7, "C", 7, true, none⟩, ⟨4, 7, "D", 8, false, none⟩]
      "2" [] 2).2.2.2 rfl (by decide) (by decide)

/-- C6, counterexample to the unqualified claim: here the fetch for the
only alert succeeds (price 95) and the alert is evaluated (the crossing
fires), yet the cycle aborts on the failed send before reaching the
last_price write at src/bot.py line 164, so the stored last_price is
still the old 120 rather than the fetched 95. -/
theorem last_price_not_updated_on_sendfail :
    check_prices (fun _ => Except.ok 95) (fun _ => Except.error ())
        [{ id := 2, chat_id := 9, symbol := "ETH", price := 100,
           alerted := false, last_price := some 120 }] =
      ([{ id := 2, chat_id := 9, symbol := "ETH", price := 100,
          alerted := false, last_price := some 120 }], [],
        some PyExn.deliveryError) := rfl
